import Mathlib

/-!
Verification of the babel_web signaling server (src/Server/server.js, with the
earlier server variant in src/unnamed/part_001) against its natural-language
specification.

The JavaScript server keeps all state in two process-wide `Map`s (`rooms` and
`socketToRoom`).  We embed `Map` as an insertion-ordered association list with
the usual JS `Map` semantics: `set` overwrites in place, `delete` removes the
entry, iteration follows insertion order.  Socket.io emissions are modelled as
an explicit list of `Emit` values; delivery of a room-targeted emission is
resolved against the socket.io room membership list supplied at the
observation point (the handlers keep it in sync with `room.users` via
`socket.join` / `socket.leave`).  Remote translation providers are modelled as
`Option String` parameters (`none` = the tier failed for any reason: network
error, non-200, malformed body), exactly mirroring the `try`/`catch` ladder of
`translateText`.
-/

namespace BabelWeb

/-- JS `Map.prototype.get`, on an insertion-ordered association list. -/
def mapGet {α : Type} (m : List (String × α)) (k : String) : Option α :=
  match m with
  | [] => none
  | (k', v) :: rest => if k' == k then some v else mapGet rest k

/-- JS `Map.prototype.has`. -/
def mapHas {α : Type} (m : List (String × α)) (k : String) : Bool :=
  match m with
  | [] => false
  | (k', _) :: rest => k' == k || mapHas rest k

/-- JS `Map.prototype.set`: overwrite in place, else append (insertion order). -/
def mapSet {α : Type} (m : List (String × α)) (k : String) (v : α) :
    List (String × α) :=
  match m with
  | [] => [(k, v)]
  | (k', v') :: rest =>
      if k' == k then (k, v) :: rest else (k', v') :: mapSet rest k v

/-- JS `Map.prototype.delete`. -/
def mapDelete {α : Type} (m : List (String × α)) (k : String) :
    List (String × α) :=
  match m with
  | [] => []
  | (k', v') :: rest =>
      if k' == k then rest else (k', v') :: mapDelete rest k

/-- `Array.from(map.values())` (insertion order). -/
def mapVals {α : Type} (m : List (String × α)) : List α := m.map Prod.snd

/-- `Array.from(map.keys())` (insertion order). -/
def mapKeys {α : Type} (m : List (String × α)) : List String := m.map Prod.fst

/-- `pat` is a leading segment of `hay` (character-wise). -/
def leadsWith : List Char → List Char → Bool
  | [], _ => true
  | _ :: _, [] => false
  | p :: ps, h :: hs => p == h && leadsWith ps hs

/-- `pat` occurs contiguously inside `hay` (character-wise). -/
def containsChars (pat : List Char) : List Char → Bool
  | [] => pat.isEmpty
  | h :: hs => leadsWith pat (h :: hs) || containsChars pat hs

/-- JS `s.includes(sub)`. -/
def strIncludes (s sub : String) : Bool :=
  containsChars sub.data s.data

/-- JS `s.toLowerCase()` (faithful on ASCII; all dictionary keys are already
lower-case). -/
def strLower (s : String) : String :=
  String.mk (s.data.map Char.toLower)

/-- Drop leading and trailing whitespace from a character list. -/
def trimChars (l : List Char) : List Char :=
  ((l.dropWhile Char.isWhitespace).reverse.dropWhile Char.isWhitespace).reverse

/-- JS `s.trim()` (faithful on ASCII whitespace). -/
def strTrim (s : String) : String :=
  String.mk (trimChars s.data)

/-! ### The translation gateway (server.js lines 83–266) -/

/-- `translations['en']['es']` of `fallbackTranslation` (server.js 169–189). -/
def enEs : List (String × String) :=
  [("hello", "hola"), ("goodbye", "adiós"), ("thank you", "gracias"),
   ("please", "por favor"), ("yes", "sí"), ("no", "no"),
   ("how are you", "¿cómo estás?"), ("what is your name", "¿cómo te llamas?"),
   ("good morning", "buenos días"), ("good night", "buenas noches"),
   ("i love you", "te quiero"),
   ("where is the bathroom", "¿dónde está el baño?"),
   ("how much does this cost", "¿cuánto cuesta esto?"),
   ("help", "ayuda"), ("sorry", "lo siento"), ("excuse me", "disculpe"),
   ("water", "agua"), ("food", "comida"), ("friend", "amigo")]

/-- `translations['en']['fr']` (server.js 190–206). -/
def enFr : List (String × String) :=
  [("hello", "bonjour"), ("goodbye", "au revoir"), ("thank you", "merci"),
   ("please", "s'il vous plaît"), ("yes", "oui"), ("no", "non"),
   ("how are you", "comment allez-vous"),
   ("what is your name", "comment vous appelez-vous"),
   ("good morning", "bonjour"), ("good night", "bonne nuit"),
   ("i love you", "je t'aime"),
   ("where is the bathroom", "où sont les toilettes"),
   ("help", "aide"), ("sorry", "désolé"), ("excuse me", "excusez-moi")]

/-- `translations['en']['de']` (server.js 207–218). -/
def enDe : List (String × String) :=
  [("hello", "hallo"), ("goodbye", "auf wiedersehen"), ("thank you", "danke"),
   ("please", "bitte"), ("yes", "ja"), ("no", "nein"),
   ("how are you", "wie geht es dir"), ("what is your name", "wie heißt du"),
   ("good morning", "guten morgen"), ("good night", "gute nacht")]

/-- `translations['en']['hi']` (server.js 219–227). -/
def enHi : List (String × String) :=
  [("hello", "नमस्ते"), ("thank you", "धन्यवाद"), ("please", "कृपया"),
   ("yes", "हाँ"), ("no", "नहीं"), ("how are you", "आप कैसे हैं"),
   ("what is your name", "आपका नाम क्या है")]

/-- `translations['es']['en']` (server.js 229–242). -/
def esEn : List (String × String) :=
  [("hola", "hello"), ("adiós", "goodbye"), ("gracias", "thank you"),
   ("por favor", "please"), ("sí", "yes"), ("no", "no"),
   ("cómo estás", "how are you"), ("cómo te llamas", "what is your name"),
   ("buenos días", "good morning"), ("buenas noches", "good night")]

/-- The whole nested `translations` table of `fallbackTranslation`. -/
def translationsTable : List (String × List (String × List (String × String))) :=
  [("en", [("es", enEs), ("fr", enFr), ("de", enDe), ("hi", enHi)]),
   ("es", [("en", esEn)])]

/-- `fallbackTranslation` (server.js 166–266): case-insensitive exact match on
the per-language-pair dictionary, then first substring containment match in
insertion order, else the original text. -/
def fallbackTranslation (text sourceLang targetLang : String) : String :=
  match mapGet translationsTable sourceLang with
  | none => text
  | some byTarget =>
    match mapGet byTarget targetLang with
    | none => text
    | some langDict =>
      match mapGet langDict (strTrim (strLower text)) with
      | some v => v
      | none =>
        match langDict.find? (fun kv => strIncludes (strTrim (strLower text)) kv.1) with
        | some kv => kv.2
        | none => text

/-- The `try`/`catch` ladder of `translateText` after the identity check
(server.js 91–162): RapidAPI, then LibreTranslate, then MyMemory, each a single
attempt whose failure (`none`) falls through, then `fallbackTranslation`. -/
def remoteChain (tier1 tier2 tier3 : Option String)
    (text sourceLang targetLang : String) : String :=
  match tier1 with
  | some t => t
  | none =>
    match tier2 with
    | some t => t
    | none =>
      match tier3 with
      | some t => t
      | none => fallbackTranslation text sourceLang targetLang

/-- `translateText` (server.js 83–163).  The function catches every tier
failure, so in the embedding it is total: it always returns a `String`. -/
def translateText (tier1 tier2 tier3 : Option String)
    (text sourceLang targetLang : String) : String :=
  if sourceLang == targetLang || strTrim text == "" then text
  else remoteChain tier1 tier2 tier3 text sourceLang targetLang

/-- `translateText` instrumented with whether a network request to a remote
provider was attempted: the first `fetch` is executed unconditionally whenever
the identity check falls through (server.js line 93). -/
def translateTextInstr (tier1 tier2 tier3 : Option String)
    (text sourceLang targetLang : String) : String × Bool :=
  if sourceLang == targetLang || strTrim text == "" then (text, false)
  else (remoteChain tier1 tier2 tier3 text sourceLang targetLang, true)

/-- Observer: the static phrase table of `fallbackTranslation` has a match
(exact or substring) for this input — exactly the tests the code performs. -/
def hasStaticMatch (text sourceLang targetLang : String) : Bool :=
  match mapGet translationsTable sourceLang with
  | none => false
  | some byTarget =>
    match mapGet byTarget targetLang with
    | none => false
    | some langDict =>
      (mapGet langDict (strTrim (strLower text))).isSome ||
        (langDict.find? (fun kv => strIncludes (strTrim (strLower text)) kv.1)).isSome

/-! ### Data model (server.js 22–24, 41–60, 300–312) -/

/-- The user record inserted into `room.users` on join (server.js 300–306;
the part_001 variant builds the same record without `socketId`, which there
always equals `id` anyway). -/
structure User where
  id : String
  name : String
  language : String
  joinedAt : Nat
  socketId : String
deriving DecidableEq

/-- A room (server.js 43–51).  `users` is a JS `Map` in insertion order. -/
structure Room where
  id : String
  host : Option String
  users : List (String × User)
  videoSession : Option String
  createdAt : Nat
  maxUsers : Nat
  type : String
deriving DecidableEq

/-- The two process-wide maps (server.js 23–24). -/
structure ServerState where
  rooms : List (String × Room)
  socketToRoom : List (String × String)
deriving DecidableEq

/-- The payload of a `receive-message` emission (server.js 391–399, 425–445,
455–474).  `originalMessage` is `some` only on the translated delivery of the
success branch. -/
structure MsgPayload where
  message : String
  originalLang : String
  translatedLang : String
  senderId : String
  timestamp : Nat
  isOwnMessage : Bool
  shouldSpeak : Bool
  originalMessage : Option String
  isFallback : Bool
deriving DecidableEq

/-- Outbound socket.io events emitted by the modelled handlers. -/
inductive Event where
  | joinError (message : String)
  | joinedRoom (roomId : String) (isHost partnerConnected : Bool)
      (users : List User)
  | partnerJoined (partnerId partnerLang partnerName : String)
  | roomUpdate (userCount : Nat) (users : List User)
  | receiveMessage (payload : MsgPayload)
  | partnerLeft (partnerId : String)
deriving DecidableEq

/-- An emission together with its addressing mode:
`toSelf` = `socket.emit`, `toSocket` = `socket.to(id).emit`,
`toRoomOthers` = `socket.to(roomId).emit`, `toRoomAll` = `io.to(roomId).emit`. -/
inductive Emit where
  | toSelf (socketId : String) (ev : Event)
  | toSocket (targetId : String) (ev : Event)
  | toRoomOthers (roomId excluded : String) (ev : Event)
  | toRoomAll (roomId : String) (ev : Event)
deriving DecidableEq

/-- The event carried by an emission. -/
def Emit.payload : Emit → Event
  | .toSelf _ e => e
  | .toSocket _ e => e
  | .toRoomOthers _ _ e => e
  | .toRoomAll _ e => e

/-- Whether socket `s` receives emission `e`, given the socket.io membership
list of the targeted room at the observation point. -/
def Emit.deliversTo (e : Emit) (members : List String) (s : String) : Bool :=
  match e with
  | .toSelf x _ => x == s
  | .toSocket x _ => x == s
  | .toRoomOthers _ ex _ => members.contains s && !(ex == s)
  | .toRoomAll _ _ => members.contains s

/-- Whether an event is a `partner-left` notification. -/
def Event.isPartnerLeftEv : Event → Bool
  | .partnerLeft _ => true
  | _ => false

/-- Whether an event is a `join-error`. -/
def Event.isJoinErrorEv : Event → Bool
  | .joinError _ => true
  | _ => false

/-- The empty registry: no rooms, no socket-to-room entries. -/
def initialState : ServerState := { rooms := [], socketToRoom := [] }

/-! ### Handlers -/

/-- `POST /api/rooms` (server.js 41–60): insert a fresh empty room with no
host and `maxUsers = 2`.  The random 8-character id is a parameter. -/
def createRoom (st : ServerState) (roomId : String) (now : Nat) : ServerState :=
  let room : Room :=
    { id := roomId, host := none, users := [], videoSession := none,
      createdAt := now, maxUsers := 2, type := "voice" }
  { st with rooms := mapSet st.rooms roomId room }

/-- The shared success path of the two join handlers (server.js 295–353,
part_001 87–138): `socket.join`, record `socketToRoom`, insert the user,
make the sole user host, then emit `joined-room`, the symmetric
`partner-joined` pair, and `room-update`. -/
def joinSuccess (st : ServerState) (room : Room)
    (sock roomId userLang userName : String) (now : Nat) :
    ServerState × List Emit :=
  let user : User :=
    { id := sock, name := userName, language := userLang,
      joinedAt := now, socketId := sock }
  let users' := mapSet room.users sock user
  let host' := if users'.length == 1 then some sock else room.host
  let room' := { room with users := users', host := host' }
  let st' : ServerState :=
    { rooms := mapSet st.rooms roomId room',
      socketToRoom := mapSet st.socketToRoom sock roomId }
  let others := (mapVals users').filter (fun u => !(u.id == sock))
  let partnerEvs :=
    if 1 < users'.length then
      Emit.toRoomOthers roomId sock (.partnerJoined sock userLang userName)
        :: others.map (fun p => Emit.toSelf sock (.partnerJoined p.id p.language p.name))
    else []
  (st',
    Emit.toSelf sock (.joinedRoom roomId (host' == some sock)
        (decide (1 < users'.length)) (mapVals users'))
      :: partnerEvs
      ++ [Emit.toRoomAll roomId (.roomUpdate users'.length (mapVals users'))])

/-- `handleVoiceRoomJoin` (server.js 282–354): reject when the room is absent
or full, otherwise join.  There is no already-a-member check. -/
def handleVoiceRoomJoin (st : ServerState)
    (sock roomId userLang userName : String) (now : Nat) :
    ServerState × List Emit :=
  match mapGet st.rooms roomId with
  | none => (st, [.toSelf sock (.joinError "Room not found")])
  | some room =>
    if room.maxUsers ≤ room.users.length then
      (st, [.toSelf sock (.joinError "Room is full (max 2 users)")])
    else
      joinSuccess st room sock roomId userLang userName now

/-- The `join-room` handler of the part_001 server variant (part_001 60–139):
like `handleVoiceRoomJoin` but with an already-in-this-room check via
`socketToRoom`, placed after the not-found and full checks. -/
def joinRoomV1 (st : ServerState)
    (sock roomId userLang userName : String) (now : Nat) :
    ServerState × List Emit :=
  match mapGet st.rooms roomId with
  | none => (st, [.toSelf sock (.joinError "Room not found")])
  | some room =>
    if room.maxUsers ≤ room.users.length then
      (st, [.toSelf sock (.joinError "Room is full (max 2 users)")])
    else if (match mapGet st.socketToRoom sock with
             | some cur => cur == roomId
             | none => false) then
      (st, [.toSelf sock (.joinError "Already in this room")])
    else
      joinSuccess st room sock roomId userLang userName now

/-- The `send-message` handler (server.js 357–478), with the awaited
`translateText` call abstracted as `tr` (an `Except` so the `catch` branch of
the handler is also covered).  Returns the unchanged state, the emissions in
order, and whether the translation call was made. -/
def sendMessageCore (st : ServerState) (sock roomId message : String)
    (tr : String → String → String → Except Unit String) (now : Nat) :
    ServerState × List Emit × Bool :=
  match mapGet st.rooms roomId with
  | none => (st, [], false)
  | some room =>
    match mapGet room.users sock with
    | none => (st, [], false)
    | some sender =>
      let echo := Emit.toSelf sock (.receiveMessage
        { message := message, originalLang := sender.language,
          translatedLang := sender.language, senderId := sock,
          timestamp := now, isOwnMessage := true, shouldSpeak := false,
          originalMessage := none, isFallback := false })
      match (mapVals room.users).find? (fun u => !(u.id == sock)) with
      | none => (st, [echo], false)
      | some receiver =>
        match tr message sender.language receiver.language with
        | .ok translatedMessage =>
          (st, [echo,
            Emit.toSocket receiver.id (.receiveMessage
              { message := translatedMessage, originalLang := sender.language,
                translatedLang := receiver.language, senderId := sock,
                timestamp := now, isOwnMessage := false, shouldSpeak := true,
                originalMessage := some message, isFallback := false })], true)
        | .error _ =>
          (st, [echo,
            Emit.toSocket receiver.id (.receiveMessage
              { message := message, originalLang := sender.language,
                translatedLang := receiver.language, senderId := sock,
                timestamp := now, isOwnMessage := false, shouldSpeak := true,
                originalMessage := none, isFallback := true })], true)

/-- `send-message` composed with the actual `translateText`, whose promise
always resolves (every tier failure is caught), so the handler's `catch`
branch is unreachable in the composition. -/
def sendMessage (st : ServerState) (sock roomId message : String)
    (tier1 tier2 tier3 : Option String) (now : Nat) :
    ServerState × List Emit × Bool :=
  sendMessageCore st sock roomId message
    (fun m s t => Except.ok (translateText tier1 tier2 tier3 m s t)) now

/-- `leaveRoom` (server.js 566–603): remove the member, notify the room with
`partner-left`, reassign the host to the first remaining key when the host
left, and when the room is now empty leave it in the map (the reclamation
timer is modelled by `reclaimRoom` below). -/
def leaveRoom (st : ServerState) (sock roomId : String) :
    ServerState × List Emit :=
  match mapGet st.rooms roomId with
  | none => (st, [])
  | some room =>
    let users' := mapDelete room.users sock
    let stm' := mapDelete st.socketToRoom sock
    let plEv := Emit.toRoomOthers roomId sock (.partnerLeft sock)
    if 0 < users'.length then
      let host' := if room.host == some sock
        then (users'.head?).map Prod.fst else room.host
      let room' := { room with users := users', host := host' }
      ({ rooms := mapSet st.rooms roomId room', socketToRoom := stm' },
        [plEv, Emit.toRoomAll roomId (.roomUpdate users'.length (mapVals users'))])
    else
      let room' := { room with users := users' }
      ({ rooms := mapSet st.rooms roomId room', socketToRoom := stm' }, [plEv])

/-- The `disconnect` handler (server.js 558–564): look the socket up in
`socketToRoom` and run `leaveRoom` only when an entry exists.  This is the
`destroyPeer` flow of the specification. -/
def destroyPeer (st : ServerState) (sock : String) : ServerState × List Emit :=
  match mapGet st.socketToRoom sock with
  | some roomId => leaveRoom st sock roomId
  | none => (st, [])

/-- The body of the 60-second `setTimeout` scheduled by `leaveRoom`
(server.js 595–600): delete the room only if it is still empty when the
timer fires. -/
def reclaimRoom (st : ServerState) (roomId : String) : ServerState :=
  match mapGet st.rooms roomId with
  | some room =>
      if room.users.length == 0 then
        { st with rooms := mapDelete st.rooms roomId }
      else st
  | none => st

/-! ### Observation steps and invariants -/

/-- One inbound event of the modelled server (room creation, the two join
variants, explicit leave, disconnect, and the reclamation timer firing). -/
inductive Step where
  | create (roomId : String) (now : Nat)
  | join (sock roomId userLang userName : String) (now : Nat)
  | joinV1 (sock roomId userLang userName : String) (now : Nat)
  | leave (sock roomId : String)
  | disconnect (sock : String)
  | reclaim (roomId : String)

/-- State transition of a single step (the `send-message`, `speech-data` and
`translation-request` handlers never mutate the registry, so they are
identities on `ServerState` and are omitted here). -/
def applyStep (st : ServerState) : Step → ServerState
  | .create rid now => createRoom st rid now
  | .join s rid l n now => (handleVoiceRoomJoin st s rid l n now).1
  | .joinV1 s rid l n now => (joinRoomV1 st s rid l n now).1
  | .leave s rid => (leaveRoom st s rid).1
  | .disconnect s => (destroyPeer st s).1
  | .reclaim rid => reclaimRoom st rid

/-- Run a sequence of steps. -/
def applySteps (st : ServerState) (l : List Step) : ServerState :=
  l.foldl applyStep st

/-- A join-room request, for the capacity claim. -/
structure JoinReq where
  sock : String
  roomId : String
  userLang : String
  userName : String
  now : Nat

/-- Run a sequence of `handleVoiceRoomJoin` requests. -/
def applyJoins (st : ServerState) (reqs : List JoinReq) : ServerState :=
  reqs.foldl (fun s r => (handleVoiceRoomJoin s r.sock r.roomId r.userLang r.userName r.now).1) st

/-- Capacity well-formedness: every room has `maxUsers = 2` (as every room the
server creates does) and at most 2 members. -/
def CapOk (st : ServerState) : Prop :=
  ∀ p ∈ st.rooms, p.2.maxUsers = 2 ∧ p.2.users.length ≤ 2

/-- The host field of one room is sound: if the room has members, `host` names
a present member. -/
def hostOk (r : Room) : Bool :=
  r.users.isEmpty ||
    (match r.host with
     | some h => mapHas r.users h
     | none => false)

/-- Host soundness for every room of the registry. -/
def HostInv (st : ServerState) : Prop :=
  ∀ p ∈ st.rooms, hostOk p.2 = true

/-! ### Concrete fixtures used by witnesses and counterexamples -/

/-- A concrete English-speaking user on socket "P". -/
def userP : User :=
  { id := "P", name := "Alice", language := "en", joinedAt := 0, socketId := "P" }

/-- A concrete Spanish-speaking user on socket "Q". -/
def userQ : User :=
  { id := "Q", name := "Bea", language := "es", joinedAt := 0, socketId := "Q" }

/-- A full two-member room hosted by "P". -/
def roomPQ : Room :=
  { id := "R", host := some "P", users := [("P", userP), ("Q", userQ)],
    videoSession := none, createdAt := 0, maxUsers := 2, type := "voice" }

/-- A one-member room with sole member and host "Q". -/
def roomQ : Room :=
  { id := "R", host := some "Q", users := [("Q", userQ)],
    videoSession := none, createdAt := 0, maxUsers := 2, type := "voice" }

/-- A one-member room with sole member and host "P". -/
def roomP : Room :=
  { id := "R", host := some "P", users := [("P", userP)],
    videoSession := none, createdAt := 0, maxUsers := 2, type := "voice" }

/-- Registry holding the two-member room. -/
def stPQ : ServerState :=
  { rooms := [("R", roomPQ)], socketToRoom := [("P", "R"), ("Q", "R")] }

/-- Registry holding the one-member room of "Q". -/
def stQ : ServerState :=
  { rooms := [("R", roomQ)], socketToRoom := [("Q", "R")] }

/-- Registry holding the one-member room of "P". -/
def stP : ServerState :=
  { rooms := [("R", roomP)], socketToRoom := [("P", "R")] }

/-! ### Lemmas about the `Map` embedding -/

theorem mapGet_mem {α : Type} {m : List (String × α)} {k : String} {v : α}
    (h : mapGet m k = some v) : (k, v) ∈ m := by
  induction m with
  | nil => simp [mapGet] at h
  | cons p rest ih =>
    obtain ⟨k', v'⟩ := p
    simp only [mapGet] at h
    split at h
    · rename_i hk
      obtain rfl : k' = k := by simpa using hk
      obtain rfl : v' = v := by simpa using h
      exact List.mem_cons_self _ _
    · exact List.mem_cons_of_mem _ (ih h)

theorem mapGet_mapSet_self {α : Type} (m : List (String × α)) (k : String)
    (v : α) : mapGet (mapSet m k v) k = some v := by
  induction m with
  | nil => simp [mapSet, mapGet]
  | cons p rest ih =>
    obtain ⟨k', v'⟩ := p
    by_cases hk : k' = k
    · subst hk
      simp [mapSet, mapGet]
    · simp [mapSet, mapGet, hk, ih]

theorem mem_mapSet {α : Type} {m : List (String × α)} {k : String} {v : α}
    {p : String × α} (h : p ∈ mapSet m k v) : p ∈ m ∨ p = (k, v) := by
  induction m with
  | nil => simpa [mapSet] using h
  | cons q rest ih =>
    obtain ⟨k', v'⟩ := q
    by_cases hk : k' = k
    · subst hk
      simp only [mapSet, beq_self_eq_true, if_true] at h
      rcases List.mem_cons.mp h with h1 | h1
      · exact Or.inr h1
      · exact Or.inl (List.mem_cons_of_mem _ h1)
    · simp only [mapSet, beq_iff_eq, hk, if_false] at h
      rcases List.mem_cons.mp h with h1 | h1
      · exact Or.inl (h1 ▸ List.mem_cons_self _ _)
      · rcases ih h1 with h2 | h2
        · exact Or.inl (List.mem_cons_of_mem _ h2)
        · exact Or.inr h2

theorem mem_mapDelete {α : Type} {m : List (String × α)} {k : String}
    {p : String × α} (h : p ∈ mapDelete m k) : p ∈ m := by
  induction m with
  | nil => simp [mapDelete] at h
  | cons q rest ih =>
    obtain ⟨k', v'⟩ := q
    by_cases hk : k' = k
    · subst hk
      simp only [mapDelete, beq_self_eq_true, if_true] at h
      exact List.mem_cons_of_mem _ h
    · simp only [mapDelete, beq_iff_eq, hk, if_false] at h
      rcases List.mem_cons.mp h with h1 | h1
      · exact h1 ▸ List.mem_cons_self _ _
      · exact List.mem_cons_of_mem _ (ih h1)

theorem length_mapSet_le {α : Type} (m : List (String × α)) (k : String)
    (v : α) : (mapSet m k v).length ≤ m.length + 1 := by
  induction m with
  | nil => simp [mapSet]
  | cons q rest ih =>
    obtain ⟨k', v'⟩ := q
    by_cases hk : k' = k
    · subst hk
      simp [mapSet]
    · simp only [mapSet, beq_iff_eq, hk, if_false, List.length_cons]
      omega

theorem mapHas_mapSet {α : Type} (m : List (String × α)) (k h : String)
    (v : α) : mapHas (mapSet m k v) h = (k == h || mapHas m h) := by
  induction m with
  | nil => simp [mapSet, mapHas]
  | cons q rest ih =>
    obtain ⟨k', v'⟩ := q
    by_cases hk : k' = k
    · subst hk
      simp only [mapSet, beq_self_eq_true, if_true, mapHas]
      cases hkh : (k' == h) <;> simp [hkh]
    · have hk' : (k' == k) = false := by simpa using hk
      simp only [mapSet, hk', if_false, mapHas, ih]
      cases h1 : (k' == h) <;> cases h2 : (k == h) <;> simp [h1, h2]

theorem mapHas_mapSet_self {α : Type} (m : List (String × α)) (k : String)
    (v : α) : mapHas (mapSet m k v) k = true := by
  rw [mapHas_mapSet]
  simp

theorem mapHas_mapSet_mono {α : Type} {m : List (String × α)} {h k : String}
    {v : α} (hm : mapHas m h = true) : mapHas (mapSet m k v) h = true := by
  rw [mapHas_mapSet, hm]
  simp

theorem mapHas_mapDelete_ne {α : Type} {m : List (String × α)} {h k : String}
    (hne : h ≠ k) : mapHas (mapDelete m k) h = mapHas m h := by
  induction m with
  | nil => simp [mapDelete]
  | cons q rest ih =>
    obtain ⟨k', v'⟩ := q
    by_cases hk : k' = k
    · subst hk
      simp only [mapDelete, beq_self_eq_true, if_true, mapHas]
      have hne' : (k' == h) = false := by simpa using fun e => hne e.symm
      simp [hne']
    · simp [mapDelete, mapHas, hk, ih]

theorem mapGet_eq_none_of_not_mem {α : Type} {m : List (String × α)}
    {k : String} (h : k ∉ m.map Prod.fst) : mapGet m k = none := by
  induction m with
  | nil => simp [mapGet]
  | cons q rest ih =>
    obtain ⟨k', v'⟩ := q
    simp only [List.map_cons, List.mem_cons] at h
    push_neg at h
    have hk : (k' == k) = false := by
      simpa using fun e => h.1 e.symm
    simp [mapGet, hk, ih h.2]

theorem mapGet_mapDelete_self {α : Type} {m : List (String × α)} {k : String}
    (hnd : (m.map Prod.fst).Nodup) : mapGet (mapDelete m k) k = none := by
  induction m with
  | nil => simp [mapDelete, mapGet]
  | cons q rest ih =>
    obtain ⟨k', v'⟩ := q
    simp only [List.map_cons, List.nodup_cons] at hnd
    by_cases hk : k' = k
    · subst hk
      simp only [mapDelete, beq_self_eq_true, if_true]
      exact mapGet_eq_none_of_not_mem hnd.1
    · simp [mapDelete, mapGet, hk, ih hnd.2]

theorem mapDelete_ne_nil_src {α : Type} {m : List (String × α)} {k : String}
    (h : mapDelete m k ≠ []) : m ≠ [] := by
  intro he
  subst he
  simp [mapDelete] at h

theorem find?_of_filter_singleton {α : Type} {l : List α} {p : α → Bool}
    {a : α} (h : l.filter p = [a]) : l.find? p = some a := by
  induction l with
  | nil => simp at h
  | cons x rest ih =>
    by_cases hx : p x
    · rw [List.filter_cons_of_pos hx] at h
      injection h with h1 h2
      subst h1
      simp [List.find?_cons_of_pos _ hx]
    · rw [List.filter_cons_of_neg (by simpa using hx)] at h
      simp only [List.find?_cons_of_neg _ (by simpa using hx)]
      exact ih h

theorem find?_of_filter_nil {α : Type} {l : List α} {p : α → Bool}
    (h : l.filter p = []) : l.find? p = none := by
  induction l with
  | nil => simp
  | cons x rest ih =>
    by_cases hx : p x
    · rw [List.filter_cons_of_pos hx] at h
      simp at h
    · rw [List.filter_cons_of_neg (by simpa using hx)] at h
      simp only [List.find?_cons_of_neg _ (by simpa using hx)]
      exact ih h

/-! ### Lemmas about the translation gateway -/

/-- `fallbackTranslation` either returns the original text or the value of a
dictionary entry of the nested table. -/
theorem fallback_cases (text s t : String) :
    fallbackTranslation text s t = text ∨
      ∃ byT d kv, mapGet translationsTable s = some byT ∧
        mapGet byT t = some d ∧ kv ∈ d ∧ fallbackTranslation text s t = kv.2 := by
  cases h1 : mapGet translationsTable s with
  | none => exact Or.inl (by simp [fallbackTranslation, h1])
  | some byT =>
    cases h2 : mapGet byT t with
    | none => exact Or.inl (by simp [fallbackTranslation, h1, h2])
    | some d =>
      cases h3 : mapGet d (strTrim (strLower text)) with
      | some v =>
        refine Or.inr ⟨byT, d, (strTrim (strLower text), v), rfl, h2, mapGet_mem h3, ?_⟩
        simp [fallbackTranslation, h1, h2, h3]
      | none =>
        cases h4 : d.find? (fun kv => strIncludes (strTrim (strLower text)) kv.1) with
        | some kv =>
          refine Or.inr ⟨byT, d, kv, rfl, h2, List.mem_of_find?_eq_some h4, ?_⟩
          simp [fallbackTranslation, h1, h2, h3, h4]
        | none => exact Or.inl (by simp [fallbackTranslation, h1, h2, h3, h4])

/-- Every value of every per-language-pair dictionary is a non-empty string. -/
theorem table_vals_ne_empty :
    ∀ q ∈ translationsTable, ∀ d ∈ q.2, ∀ kv ∈ d.2, kv.2 ≠ "" := by decide

theorem fallback_ne_empty {text s t : String} (h : text ≠ "") :
    fallbackTranslation text s t ≠ "" := by
  rcases fallback_cases text s t with hc | ⟨byT, d, kv, h1, h2, hkv, hc⟩
  · rw [hc]
    exact h
  · rw [hc]
    exact table_vals_ne_empty _ (mapGet_mem h1) _ (mapGet_mem h2) _ hkv

/-- When the static table has no match for the input, `fallbackTranslation`
returns the original text. -/
theorem fallback_of_no_match {text s t : String}
    (h : hasStaticMatch text s t = false) : fallbackTranslation text s t = text := by
  cases h1 : mapGet translationsTable s with
  | none => simp [fallbackTranslation, h1]
  | some byT =>
    cases h2 : mapGet byT t with
    | none => simp [fallbackTranslation, h1, h2]
    | some d =>
      cases h3 : mapGet d (strTrim (strLower text)) with
      | some v =>
        exfalso
        simp [hasStaticMatch, h1, h2, h3] at h
      | none =>
        cases h4 : d.find? (fun kv => strIncludes (strTrim (strLower text)) kv.1) with
        | some kv =>
          exfalso
          simp [hasStaticMatch, h1, h2, h3, h4] at h
        | none => simp [fallbackTranslation, h1, h2, h3, h4]

/-! ### Claim theorems -/

/-- C3: `translateText` is total (every tier failure is caught), and with all
remote providers failing it degrades to the built-in dictionary:
`translateText("hello","en","es")` returns `"hola"`; when the dictionary has
no match the original text is returned unchanged; for non-empty input the
result is never the empty string. -/
theorem translateText_total_fallback :
    translateText none none none "hello" "en" "es" = "hola"
    ∧ (∀ text s t : String, text ≠ "" →
        translateText none none none text s t ≠ "")
    ∧ (∀ text s t : String, hasStaticMatch text s t = false →
        translateText none none none text s t = text) := by
  refine ⟨by decide, ?_, ?_⟩
  · intro text s t h
    unfold translateText
    split
    · exact h
    · simp only [remoteChain]
      exact fallback_ne_empty h
  · intro text s t h
    unfold translateText
    split
    · rfl
    · simp only [remoteChain]
      exact fallback_of_no_match h

/-- Witness for C3 at concrete inputs: a non-empty input with no dictionary
match comes back unchanged (hence non-empty). -/
theorem translateText_total_fallback_witness :
    translateText none none none "xyzq" "en" "es" = "xyzq"
    ∧ translateText none none none "xyzq" "en" "es" ≠ "" :=
  ⟨translateText_total_fallback.2.2 "xyzq" "en" "es" (by decide),
   translateText_total_fallback.2.1 "xyzq" "en" "es" (by decide)⟩

/-- C4 counterexample: `"hello"/"en"→"es"` has a static-table match
(`fallbackTranslation` yields `"hola"`), yet `translateText` attempts the
network first and, when the first remote tier answers, returns the remote
result rather than the static one — the static table is not consulted before
the network call. -/
theorem translateText_static_first_counterexample :
    translateTextInstr (some "REMOTE") none none "hello" "en" "es" = ("REMOTE", true)
    ∧ fallbackTranslation "hello" "en" "es" = "hola" := by
  exact ⟨by decide, by decide⟩

/-- C4 amended: for every non-identity input (different languages, non-blank
text) a network request is attempted before the static table is consulted;
the static table is used only as the final tier, once all three remote
providers have failed, and then produces the static translation. -/
theorem translateText_network_before_static
    (t1 t2 t3 : Option String) (text s tgt : String)
    (h : (s == tgt || strTrim text == "") = false) :
    (translateTextInstr t1 t2 t3 text s tgt).2 = true
    ∧ (t1 = none → t2 = none → t3 = none →
        (translateTextInstr t1 t2 t3 text s tgt).1 =
          fallbackTranslation text s tgt) := by
  constructor
  · simp [translateTextInstr, h]
  · intro e1 e2 e3
    subst e1
    subst e2
    subst e3
    simp [translateTextInstr, remoteChain, h]

/-- Witness for the amended C4 at a concrete input. -/
theorem translateText_network_before_static_witness :
    (translateTextInstr none none none "hello" "en" "es").2 = true
    ∧ (translateTextInstr none none none "hello" "en" "es").1 =
        fallbackTranslation "hello" "en" "es" :=
  ⟨(translateText_network_before_static none none none "hello" "en" "es" (by decide)).1,
   (translateText_network_before_static none none none "hello" "en" "es" (by decide)).2
     rfl rfl rfl⟩

/-- C10: a `send-message` whose roomId names no room, or whose sender is not
a member of the named room, produces no outbound event at all (not even an
error to the sender), leaves the state unchanged, and makes no translation
call. -/
theorem sendMessage_foreign_silent
    (st : ServerState) (sock roomId message : String)
    (tr : String → String → String → Except Unit String) (now : Nat)
    (h : ∀ room, mapGet st.rooms roomId = some room →
      mapGet room.users sock = none) :
    sendMessageCore st sock roomId message tr now = (st, [], false) := by
  unfold sendMessageCore
  split
  · rfl
  · rename_i room hr
    rw [h room hr]

/-- Witness for C10: a socket that is not a member of an existing room. -/
theorem sendMessage_foreign_silent_witness :
    sendMessageCore stQ "P" "R" "hi" (fun m _ _ => Except.ok m) 7
      = (stQ, [], false) := by
  refine sendMessage_foreign_silent stQ "P" "R" "hi" _ 7 ?_
  intro room hr
  rw [show mapGet stQ.rooms "R" = some roomQ from rfl] at hr
  cases hr
  rfl
/-- C2: for every `send-message` from a member P of a room, in every outcome
branch (no partner present, translation succeeded, translation failed) P
receives exactly one event, it is the echo carrying the original text in P's
own language with `shouldSpeak = false`; P never receives any
`shouldSpeak = true` event for its own message. -/
theorem sendMessage_echo_never_speaks
    (st : ServerState) (sock roomId message : String)
    (tr : String → String → String → Except Unit String) (now : Nat)
    (room : Room) (sender : User)
    (hroom : mapGet st.rooms roomId = some room)
    (hsender : mapGet room.users sock = some sender) :
    (∀ members : List String,
      (((sendMessageCore st sock roomId message tr now).2.1).filter
        (fun e => e.deliversTo members sock)).length = 1)
    ∧ ∀ e ∈ (sendMessageCore st sock roomId message tr now).2.1,
        ∀ members : List String, e.deliversTo members sock = true →
          e = Emit.toSelf sock (Event.receiveMessage
            { message := message, originalLang := sender.language,
              translatedLang := sender.language, senderId := sock,
              timestamp := now, isOwnMessage := true, shouldSpeak := false,
              originalMessage := none, isFallback := false }) := by
  rcases hf : (mapVals room.users).find? (fun u => !(u.id == sock)) with _ | receiver
  · have hres : sendMessageCore st sock roomId message tr now =
        (st, [Emit.toSelf sock (Event.receiveMessage
          { message := message, originalLang := sender.language,
            translatedLang := sender.language, senderId := sock,
            timestamp := now, isOwnMessage := true, shouldSpeak := false,
            originalMessage := none, isFallback := false })], false) := by
      simp only [sendMessageCore, hroom, hsender, hf]
    rw [hres]
    constructor
    · intro members
      simp [Emit.deliversTo]
    · intro e he members _
      simpa using he
  · have hne : (receiver.id == sock) = false := by
      have h1 := List.find?_some hf
      simpa using h1
    rcases htr : tr message sender.language receiver.language with err | tmsg
    · have hres : sendMessageCore st sock roomId message tr now =
          (st, [Emit.toSelf sock (Event.receiveMessage
              { message := message, originalLang := sender.language,
                translatedLang := sender.language, senderId := sock,
                timestamp := now, isOwnMessage := true, shouldSpeak := false,
                originalMessage := none, isFallback := false }),
            Emit.toSocket receiver.id (Event.receiveMessage
              { message := message, originalLang := sender.language,
                translatedLang := receiver.language, senderId := sock,
                timestamp := now, isOwnMessage := false, shouldSpeak := true,
                originalMessage := none, isFallback := true })], true) := by
        simp only [sendMessageCore, hroom, hsender, hf, htr]
      rw [hres]
      constructor
      · intro members
        simp [Emit.deliversTo, hne]
      · intro e he members hd
        rcases List.mem_cons.mp he with he1 | he1
        · exact he1
        · exfalso
          have : e = Emit.toSocket receiver.id (Event.receiveMessage
              { message := message, originalLang := sender.language,
                translatedLang := receiver.language, senderId := sock,
                timestamp := now, isOwnMessage := false, shouldSpeak := true,
                originalMessage := none, isFallback := true }) := by
            simpa using he1
          rw [this] at hd
          simp [Emit.deliversTo, hne] at hd
    · have hres : sendMessageCore st sock roomId message tr now =
          (st, [Emit.toSelf sock (Event.receiveMessage
              { message := message, originalLang := sender.language,
                translatedLang := sender.language, senderId := sock,
                timestamp := now, isOwnMessage := true, shouldSpeak := false,
                originalMessage := none, isFallback := false }),
            Emit.toSocket receiver.id (Event.receiveMessage
              { message := tmsg, originalLang := sender.language,
                translatedLang := receiver.language, senderId := sock,
                timestamp := now, isOwnMessage := false, shouldSpeak := true,
                originalMessage := some message, isFallback := false })], true) := by
        simp only [sendMessageCore, hroom, hsender, hf, htr]
      rw [hres]
      constructor
      · intro members
        simp [Emit.deliversTo, hne]
      · intro e he members hd
        rcases List.mem_cons.mp he with he1 | he1
        · exact he1
        · exfalso
          have : e = Emit.toSocket receiver.id (Event.receiveMessage
              { message := tmsg, originalLang := sender.language,
                translatedLang := receiver.language, senderId := sock,
                timestamp := now, isOwnMessage := false, shouldSpeak := true,
                originalMessage := some message, isFallback := false }) := by
            simpa using he1
          rw [this] at hd
          simp [Emit.deliversTo, hne] at hd

/-- Witness for C2: in the full room, with the translation call failing
(exercising the `catch` branch), "P" receives exactly one event. -/
theorem sendMessage_echo_never_speaks_witness :
    (((sendMessageCore stPQ "P" "R" "hey"
        (fun _ _ _ => Except.error ()) 3).2.1).filter
      (fun e => e.deliversTo ["P", "Q"] "P")).length = 1 :=
  (sendMessage_echo_never_speaks stPQ "P" "R" "hey" _ 3 roomPQ userP
    rfl rfl).1 ["P", "Q"]

/-- C5: a `send-message` from member P with exactly one other member Q
delivers to Q exactly one `receive-message`, carrying the translation of the
message from P's language to Q's language, `shouldSpeak = true`, the sender
id, the original text and the timestamp.  With no other member present, only
the echo is produced and no translation call is made. -/
theorem sendMessage_partner_delivery
    (st : ServerState) (sock roomId message : String)
    (t1 t2 t3 : Option String) (now : Nat) (room : Room) (sender : User)
    (hroom : mapGet st.rooms roomId = some room)
    (hsender : mapGet room.users sock = some sender) :
    (∀ qu : User,
      (mapVals room.users).filter (fun u => !(u.id == sock)) = [qu] →
      (sendMessage st sock roomId message t1 t2 t3 now =
        (st,
         [Emit.toSelf sock (Event.receiveMessage
            { message := message, originalLang := sender.language,
              translatedLang := sender.language, senderId := sock,
              timestamp := now, isOwnMessage := true, shouldSpeak := false,
              originalMessage := none, isFallback := false }),
          Emit.toSocket qu.id (Event.receiveMessage
            { message := translateText t1 t2 t3 message sender.language qu.language,
              originalLang := sender.language, translatedLang := qu.language,
              senderId := sock, timestamp := now, isOwnMessage := false,
              shouldSpeak := true, originalMessage := some message,
              isFallback := false })], true))
      ∧ ∀ members : List String,
          (((sendMessage st sock roomId message t1 t2 t3 now).2.1).filter
            (fun e => e.deliversTo members qu.id)).length = 1)
    ∧ ((mapVals room.users).filter (fun u => !(u.id == sock)) = [] →
        sendMessage st sock roomId message t1 t2 t3 now =
          (st,
           [Emit.toSelf sock (Event.receiveMessage
              { message := message, originalLang := sender.language,
                translatedLang := sender.language, senderId := sock,
                timestamp := now, isOwnMessage := true, shouldSpeak := false,
                originalMessage := none, isFallback := false })], false)) := by
  constructor
  · intro qu hqu
    have hf := find?_of_filter_singleton hqu
    have hqne : (qu.id == sock) = false := by
      have h1 := List.find?_some hf
      simpa using h1
    have hres : sendMessage st sock roomId message t1 t2 t3 now =
        (st,
         [Emit.toSelf sock (Event.receiveMessage
            { message := message, originalLang := sender.language,
              translatedLang := sender.language, senderId := sock,
              timestamp := now, isOwnMessage := true, shouldSpeak := false,
              originalMessage := none, isFallback := false }),
          Emit.toSocket qu.id (Event.receiveMessage
            { message := translateText t1 t2 t3 message sender.language qu.language,
              originalLang := sender.language, translatedLang := qu.language,
              senderId := sock, timestamp := now, isOwnMessage := false,
              shouldSpeak := true, originalMessage := some message,
              isFallback := false })], true) := by
      simp only [sendMessage, sendMessageCore, hroom, hsender, hf]
    refine ⟨hres, ?_⟩
    intro members
    rw [hres]
    have hsq : (sock == qu.id) = false := by
      have h2 : qu.id ≠ sock := by simpa using hqne
      simpa using fun e => h2 e.symm
    simp [Emit.deliversTo, hsq]
  · intro hnil
    have hf := find?_of_filter_nil hnil
    simp only [sendMessage, sendMessageCore, hroom, hsender, hf]

/-- Witness for C5: in the full room "P" sends "hello"; with all remote tiers
failing, "Q" is delivered `"hola"` with `shouldSpeak = true`. -/
theorem sendMessage_partner_delivery_witness :
    sendMessage stPQ "P" "R" "hello" none none none 3 =
      (stPQ,
       [Emit.toSelf "P" (Event.receiveMessage
          { message := "hello", originalLang := "en", translatedLang := "en",
            senderId := "P", timestamp := 3, isOwnMessage := true,
            shouldSpeak := false, originalMessage := none, isFallback := false }),
        Emit.toSocket "Q" (Event.receiveMessage
          { message := "hola", originalLang := "en", translatedLang := "es",
            senderId := "P", timestamp := 3, isOwnMessage := false,
            shouldSpeak := true, originalMessage := some "hello",
            isFallback := false })], true) := by
  have h := (sendMessage_partner_delivery stPQ "P" "R" "hello" none none none 3
    roomPQ userP rfl rfl).1 userQ (by decide)
  have h1 := h.1
  rw [h1]
  decide

/-- `handleVoiceRoomJoin` preserves capacity well-formedness: a join request
can only add a member to a room that had at most one. -/
theorem capOk_join (st : ServerState) (h : CapOk st)
    (sock roomId userLang userName : String) (now : Nat) :
    CapOk (handleVoiceRoomJoin st sock roomId userLang userName now).1 := by
  unfold handleVoiceRoomJoin
  split
  · exact h
  · rename_i room hroom
    split
    · exact h
    · rename_i hfull
      have hcap := h (roomId, room) (mapGet_mem hroom)
      have hmax : room.maxUsers = 2 := hcap.1
      have hlt : room.users.length < 2 := by
        rw [hmax] at hfull
        omega
      intro p hp
      have hp' : p ∈ mapSet st.rooms roomId
          { room with
            users := mapSet room.users sock
              { id := sock, name := userName, language := userLang,
                joinedAt := now, socketId := sock },
            host := if (mapSet room.users sock
                { id := sock, name := userName, language := userLang,
                  joinedAt := now, socketId := sock }).length == 1
              then some sock else room.host } := hp
      rcases mem_mapSet hp' with hm | hm
      · exact h p hm
      · rw [hm]
        refine ⟨hcap.1, ?_⟩
        have := length_mapSet_le room.users sock
          { id := sock, name := userName, language := userLang,
            joinedAt := now, socketId := sock }
        simp only
        omega

/-- Capacity well-formedness is preserved by any sequence of join requests. -/
theorem capOk_applyJoins :
    ∀ (reqs : List JoinReq) (st : ServerState), CapOk st →
      CapOk (applyJoins st reqs)
  | [], _, h => h
  | r :: rest, st, h =>
      capOk_applyJoins rest _ (capOk_join st h r.sock r.roomId r.userLang r.userName r.now)

/-- C1: starting from a capacity-well-formed registry, no sequence of
join-room requests ever pushes a room above 2 members, and a join aimed at a
room that already has 2 members is answered by the single
"Room is full" error to the requester with the registry unchanged (so the
request is not queued). -/
theorem room_capacity_invariant (st : ServerState) (h : CapOk st) :
    (∀ reqs : List JoinReq, CapOk (applyJoins st reqs))
    ∧ ∀ sock roomId userLang userName now room,
        mapGet st.rooms roomId = some room → 2 ≤ room.users.length →
        handleVoiceRoomJoin st sock roomId userLang userName now =
          (st, [Emit.toSelf sock (Event.joinError "Room is full (max 2 users)")]) := by
  constructor
  · intro reqs
    exact capOk_applyJoins reqs st h
  · intro sock roomId userLang userName now room hroom hfull
    have hmax : room.maxUsers = 2 := (h (roomId, room) (mapGet_mem hroom)).1
    simp only [handleVoiceRoomJoin, hroom, hmax]
    rw [if_pos hfull]

/-- Witness for C1: a third join against the full room is rejected. -/
theorem room_capacity_invariant_witness :
    handleVoiceRoomJoin stPQ "S" "R" "fr" "Cleo" 9 =
      (stPQ, [Emit.toSelf "S" (Event.joinError "Room is full (max 2 users)")]) :=
  (room_capacity_invariant stPQ (by unfold CapOk; decide)).2 "S" "R" "fr" "Cleo" 9
    roomPQ rfl (by decide)

/-- C7: the peer-destruction flow (the `disconnect` handler) is idempotent:
the second run on the same socket finds no `socketToRoom` entry, changes
nothing and emits nothing, and across both runs exactly one `partner-left`
broadcast is produced (by the first run). -/
theorem destroyPeer_idempotent
    (st : ServerState) (sock roomId : String) (room : Room)
    (hnd : (st.socketToRoom.map Prod.fst).Nodup)
    (hmap : mapGet st.socketToRoom sock = some roomId)
    (hroom : mapGet st.rooms roomId = some room) :
    destroyPeer (destroyPeer st sock).1 sock = ((destroyPeer st sock).1, [])
    ∧ (((destroyPeer st sock).2).filter
        (fun e => e.payload.isPartnerLeftEv)).length = 1 := by
  have hd1 : destroyPeer st sock = leaveRoom st sock roomId := by
    simp only [destroyPeer, hmap]
  constructor
  · have hstm : (destroyPeer st sock).1.socketToRoom =
        mapDelete st.socketToRoom sock := by
      rw [hd1]
      simp only [leaveRoom, hroom]
      split <;> rfl
    have hget : mapGet (destroyPeer st sock).1.socketToRoom sock = none := by
      rw [hstm]
      exact mapGet_mapDelete_self hnd
    set X := (destroyPeer st sock).1 with hX
    simp only [destroyPeer, hget]
  · rw [hd1]
    simp only [leaveRoom, hroom]
    split
    · simp [Emit.payload, Event.isPartnerLeftEv]
    · simp [Emit.payload, Event.isPartnerLeftEv]

/-- Witness for C7 on the full room: disconnecting "P" twice. -/
theorem destroyPeer_idempotent_witness :
    destroyPeer (destroyPeer stPQ "P").1 "P" = ((destroyPeer stPQ "P").1, [])
    ∧ (((destroyPeer stPQ "P").2).filter
        (fun e => e.payload.isPartnerLeftEv)).length = 1 :=
  destroyPeer_idempotent stPQ "P" "R" roomPQ (by decide) rfl rfl

/-- C8: when the sole member of a room leaves, the room is not deleted — it
stays lookupable (with 0 members) until the reclamation timer fires; and if a
join for that roomId arrives first, the room survives the timer: the joiner
is its sole member and its host, and `reclaimRoom` leaves the state
untouched. -/
theorem room_grace_window
    (st : ServerState) (roomId p : String) (u : User) (room : Room)
    (hroom : mapGet st.rooms roomId = some room)
    (husers : room.users = [(p, u)])
    (hmax : room.maxUsers = 2) :
    mapGet (leaveRoom st p roomId).1.rooms roomId = some { room with users := [] }
    ∧ ∀ q qLang qName now,
        mapGet ((handleVoiceRoomJoin (leaveRoom st p roomId).1
            q roomId qLang qName now).1).rooms roomId
          = some { room with
              users := [(q, { id := q, name := qName, language := qLang,
                              joinedAt := now, socketId := q })],
              host := some q }
        ∧ reclaimRoom ((handleVoiceRoomJoin (leaveRoom st p roomId).1
              q roomId qLang qName now).1) roomId
            = (handleVoiceRoomJoin (leaveRoom st p roomId).1
                q roomId qLang qName now).1 := by
  have h1 : (leaveRoom st p roomId).1 =
      { rooms := mapSet st.rooms roomId { room with users := [] },
        socketToRoom := mapDelete st.socketToRoom p } := by
    simp [leaveRoom, hroom, husers, mapDelete]
  have hlook : mapGet (leaveRoom st p roomId).1.rooms roomId =
      some { room with users := [] } := by
    rw [h1]
    exact mapGet_mapSet_self _ _ _
  refine ⟨hlook, ?_⟩
  intro q qLang qName now
  have h2 : (handleVoiceRoomJoin (leaveRoom st p roomId).1
      q roomId qLang qName now).1 =
    { rooms := mapSet (leaveRoom st p roomId).1.rooms roomId
        { room with
          users := [(q, { id := q, name := qName, language := qLang,
                          joinedAt := now, socketId := q })],
          host := some q },
      socketToRoom := mapSet (leaveRoom st p roomId).1.socketToRoom q roomId } := by
    simp [handleVoiceRoomJoin, hlook, hmax, joinSuccess, mapSet]
  constructor
  · rw [h2]
    exact mapGet_mapSet_self _ _ _
  · rw [h2]
    simp [reclaimRoom, mapGet_mapSet_self]

/-- Witness for C8: "Q" leaves its room, "P" joins inside the grace window,
and the reclamation timer then leaves the room alone. -/
theorem room_grace_window_witness :
    mapGet (leaveRoom stQ "Q" "R").1.rooms "R" = some { roomQ with users := [] }
    ∧ reclaimRoom ((handleVoiceRoomJoin (leaveRoom stQ "Q" "R").1
          "P" "R" "en" "Alice" 5).1) "R"
        = (handleVoiceRoomJoin (leaveRoom stQ "Q" "R").1 "P" "R" "en" "Alice" 5).1 :=
  ⟨(room_grace_window stQ "R" "Q" userQ roomQ rfl rfl rfl).1,
   ((room_grace_window stQ "R" "Q" userQ roomQ rfl rfl rfl).2 "P" "en" "Alice" 5).2⟩

/-- A room with no members satisfies `hostOk` vacuously. -/
theorem hostOk_of_empty {r : Room} (h : r.users = []) : hostOk r = true := by
  unfold hostOk
  rw [h]
  rfl

/-- A room whose host is a present member satisfies `hostOk`. -/
theorem hostOk_of_member {r : Room} (hh : String) (hhost : r.host = some hh)
    (hmem : mapHas r.users hh = true) : hostOk r = true := by
  unfold hostOk
  rw [hhost]
  simp [hmem]

/-- From `hostOk` on a non-empty room, extract the member the host names. -/
theorem hostOk_elim {r : Room} (hne : r.users ≠ []) (h : hostOk r = true) :
    ∃ hh, r.host = some hh ∧ mapHas r.users hh = true := by
  unfold hostOk at h
  rw [List.isEmpty_eq_false_iff_exists_mem.mpr] at h
  · cases hhost : r.host with
    | none =>
      rw [hhost] at h
      simp at h
    | some hh =>
      rw [hhost] at h
      simp at h
      exact ⟨hh, rfl, h⟩
  · rcases List.exists_mem_of_ne_nil r.users hne with ⟨x, hx⟩
    exact ⟨x, hx⟩

/-- The join success path preserves host soundness. -/
theorem hostInv_joinSuccess (st : ServerState) (room : Room)
    (sock roomId userLang userName : String) (now : Nat)
    (h : HostInv st) (hroom : mapGet st.rooms roomId = some room) :
    HostInv (joinSuccess st room sock roomId userLang userName now).1 := by
  intro p hp
  have hp' : p ∈ mapSet st.rooms roomId
      { room with
        users := mapSet room.users sock
          { id := sock, name := userName, language := userLang,
            joinedAt := now, socketId := sock },
        host := if (mapSet room.users sock
            { id := sock, name := userName, language := userLang,
              joinedAt := now, socketId := sock }).length == 1
          then some sock else room.host } := hp
  rcases mem_mapSet hp' with hm | hm
  · exact h p hm
  · rw [hm]
    by_cases hl : (mapSet room.users sock
        { id := sock, name := userName, language := userLang,
          joinedAt := now, socketId := sock }).length == 1
    · refine hostOk_of_member sock ?_ ?_
      · simp [hl]
      · exact mapHas_mapSet_self _ _ _
    · have hne : room.users ≠ [] := by
        intro he
        rw [he] at hl
        simp [mapSet] at hl
      rcases hostOk_elim hne (h (roomId, room) (mapGet_mem hroom)) with ⟨hh, hh1, hh2⟩
      refine hostOk_of_member hh ?_ ?_
      · simp [hl, hh1]
      · exact mapHas_mapSet_mono hh2

/-- `handleVoiceRoomJoin` preserves host soundness. -/
theorem hostInv_join (st : ServerState)
    (sock roomId userLang userName : String) (now : Nat) (h : HostInv st) :
    HostInv (handleVoiceRoomJoin st sock roomId userLang userName now).1 := by
  unfold handleVoiceRoomJoin
  split
  · exact h
  · rename_i room hroom
    split
    · exact h
    · exact hostInv_joinSuccess st room sock roomId userLang userName now h hroom

/-- The part_001 join handler preserves host soundness. -/
theorem hostInv_joinV1 (st : ServerState)
    (sock roomId userLang userName : String) (now : Nat) (h : HostInv st) :
    HostInv (joinRoomV1 st sock roomId userLang userName now).1 := by
  unfold joinRoomV1
  split
  · exact h
  · rename_i room hroom
    split
    · exact h
    · split
      · exact h
      · exact hostInv_joinSuccess st room sock roomId userLang userName now h hroom

/-- `createRoom` preserves host soundness (the new room is empty). -/
theorem hostInv_createRoom (st : ServerState) (roomId : String) (now : Nat)
    (h : HostInv st) : HostInv (createRoom st roomId now) := by
  intro p hp
  rcases mem_mapSet hp with hm | hm
  · exact h p hm
  · rw [hm]
    exact hostOk_of_empty rfl

/-- `leaveRoom` preserves host soundness: on a non-empty remainder the host
is either untouched (still a member) or reassigned to the first remaining
key; an emptied room is vacuously sound. -/
theorem hostInv_leaveRoom (st : ServerState) (sock roomId : String)
    (h : HostInv st) : HostInv (leaveRoom st sock roomId).1 := by
  cases hroom : mapGet st.rooms roomId with
  | none =>
    have hstate : (leaveRoom st sock roomId).1 = st := by
      simp [leaveRoom, hroom]
    rw [hstate]
    exact h
  | some room =>
    by_cases hpos : 0 < (mapDelete room.users sock).length
    · have hstate : (leaveRoom st sock roomId).1 =
          { rooms := mapSet st.rooms roomId
              { room with
                users := mapDelete room.users sock,
                host := if room.host == some sock
                  then ((mapDelete room.users sock).head?).map Prod.fst
                  else room.host },
            socketToRoom := mapDelete st.socketToRoom sock } := by
        simp only [leaveRoom, hroom]
        rw [if_pos hpos]
      rw [hstate]
      intro p hp
      rcases mem_mapSet hp with hm | hm
      · exact h p hm
      · rw [hm]
        by_cases hhost : (room.host == some sock) = true
        · rcases List.exists_cons_of_ne_nil
              (List.ne_nil_of_length_pos hpos) with ⟨kv, rest, hu⟩
          refine hostOk_of_member kv.1 ?_ ?_
          · simp [hhost, hu]
          · simp [hu, mapHas]
        · have hne : room.users ≠ [] :=
            mapDelete_ne_nil_src (List.ne_nil_of_length_pos hpos)
          rcases hostOk_elim hne (h (roomId, room) (mapGet_mem hroom)) with
            ⟨hh, hh1, hh2⟩
          have hhs : hh ≠ sock := by
            intro he
            rw [hh1, he] at hhost
            simp at hhost
          refine hostOk_of_member hh ?_ ?_
          · rw [Bool.not_eq_true] at hhost
            rw [if_neg (by simp [hhost])]
            exact hh1
          · rw [mapHas_mapDelete_ne hhs]
            exact hh2
    · have hstate : (leaveRoom st sock roomId).1 =
          { rooms := mapSet st.rooms roomId
              { room with
                users := mapDelete room.users sock },
            socketToRoom := mapDelete st.socketToRoom sock } := by
        simp only [leaveRoom, hroom]
        rw [if_neg hpos]
      rw [hstate]
      intro p hp
      rcases mem_mapSet hp with hm | hm
      · exact h p hm
      · rw [hm]
        refine hostOk_of_empty ?_
        simpa using List.length_eq_zero.mp (by omega)

/-- The disconnect flow preserves host soundness. -/
theorem hostInv_destroyPeer (st : ServerState) (sock : String)
    (h : HostInv st) : HostInv (destroyPeer st sock).1 := by
  unfold destroyPeer
  split
  · exact hostInv_leaveRoom st sock _ h
  · exact h

/-- The reclamation timer preserves host soundness. -/
theorem hostInv_reclaimRoom (st : ServerState) (roomId : String)
    (h : HostInv st) : HostInv (reclaimRoom st roomId) := by
  unfold reclaimRoom
  split
  · split
    · intro p hp
      exact h p (mem_mapDelete hp)
    · exact h
  · exact h

/-- Any single step preserves host soundness. -/
theorem hostInv_applyStep (st : ServerState) (sp : Step) (h : HostInv st) :
    HostInv (applyStep st sp) := by
  cases sp with
  | create rid now => exact hostInv_createRoom st rid now h
  | join s rid l n now => exact hostInv_join st s rid l n now h
  | joinV1 s rid l n now => exact hostInv_joinV1 st s rid l n now h
  | leave s rid => exact hostInv_leaveRoom st s rid h
  | disconnect s => exact hostInv_destroyPeer st s h
  | reclaim rid => exact hostInv_reclaimRoom st rid h

/-- Host soundness is preserved by any sequence of steps. -/
theorem hostInv_applySteps :
    ∀ (steps : List Step) (st : ServerState), HostInv st →
      HostInv (applySteps st steps)
  | [], _, h => h
  | sp :: rest, st, h =>
      hostInv_applySteps rest _ (hostInv_applyStep st sp h)

/-- C9 counterexample: from the empty registry, create room "R", let "P"
join, then let "P" leave.  The room is retained for the grace window with
`host = some "P"` while its member map is empty — a non-null hostId that
names no currently-present member, refuting the claim at this observation
point. -/
theorem host_invariant_counterexample :
    mapGet (applySteps initialState
        [Step.create "R" 0, Step.join "P" "R" "en" "Alice" 1,
         Step.leave "P" "R"]).rooms "R"
      = some { id := "R", host := some "P", users := [], videoSession := none,
               createdAt := 0, maxUsers := 2, type := "voice" } := by
  decide

/-- C9 amended: whenever a room has at least one member, its hostId names a
present member — and this is preserved by every modelled step; when the host
leaves a room that still has members, hostId is reassigned to the
lowest-iteration-order (first-inserted) remaining member id.  Only a room
whose membership just reached 0 keeps the departed peer's id as a stale
hostId until the grace-window reclamation or the next join. -/
theorem host_invariant_nonempty (st : ServerState) (h : HostInv st) :
    (∀ steps : List Step, HostInv (applySteps st steps))
    ∧ ∀ sock roomId room, mapGet st.rooms roomId = some room →
        room.host = some sock → mapDelete room.users sock ≠ [] →
        ∃ r', mapGet (leaveRoom st sock roomId).1.rooms roomId = some r'
          ∧ r'.host = ((mapDelete room.users sock).head?).map Prod.fst := by
  constructor
  · intro steps
    exact hostInv_applySteps steps st h
  · intro sock roomId room hroom hhost hne
    have hbeq : (room.host == some sock) = true := by
      rw [hhost]
      simp
    have hpos : 0 < (mapDelete room.users sock).length :=
      List.length_pos.mpr hne
    have heq : mapGet (leaveRoom st sock roomId).1.rooms roomId =
        some { room with
          users := mapDelete room.users sock,
          host := ((mapDelete room.users sock).head?).map Prod.fst } := by
      have hstate : (leaveRoom st sock roomId).1 =
          { rooms := mapSet st.rooms roomId
              { room with
                users := mapDelete room.users sock,
                host := ((mapDelete room.users sock).head?).map Prod.fst },
            socketToRoom := mapDelete st.socketToRoom sock } := by
        simp only [leaveRoom, hroom]
        rw [if_pos hpos, if_pos hbeq]
      rw [hstate]
      exact mapGet_mapSet_self _ _ _
    exact ⟨_, heq, rfl⟩

/-- Witness for the amended C9: host "P" leaves the full room and the host is
reassigned to the remaining member "Q". -/
theorem host_invariant_nonempty_witness :
    ∃ r', mapGet (leaveRoom stPQ "P" "R").1.rooms "R" = some r'
      ∧ r'.host = ((mapDelete roomPQ.users "P").head?).map Prod.fst :=
  (host_invariant_nonempty stPQ (by unfold HostInv; decide)).2 "P" "R" roomPQ
    rfl rfl (by decide)

/-- The join success path emits `joined-room`, `partner-joined` and
`room-update` events only — never a `join-error`. -/
theorem joinSuccess_no_error (st : ServerState) (room : Room)
    (sock roomId userLang userName : String) (now : Nat) :
    ((joinSuccess st room sock roomId userLang userName now).2).filter
      (fun e => e.payload.isJoinErrorEv) = [] := by
  rw [List.filter_eq_nil_iff]
  intro e he
  have he' : e ∈ Emit.toSelf sock (Event.joinedRoom roomId
        ((if (mapSet room.users sock
            { id := sock, name := userName, language := userLang,
              joinedAt := now, socketId := sock }).length == 1
          then some sock else room.host) == some sock)
        (decide (1 < (mapSet room.users sock
            { id := sock, name := userName, language := userLang,
              joinedAt := now, socketId := sock }).length))
        (mapVals (mapSet room.users sock
            { id := sock, name := userName, language := userLang,
              joinedAt := now, socketId := sock })))
      :: (if 1 < (mapSet room.users sock
            { id := sock, name := userName, language := userLang,
              joinedAt := now, socketId := sock }).length then
          Emit.toRoomOthers roomId sock (Event.partnerJoined sock userLang userName)
            :: ((mapVals (mapSet room.users sock
                { id := sock, name := userName, language := userLang,
                  joinedAt := now, socketId := sock })).filter
                  (fun u => !(u.id == sock))).map
                (fun p => Emit.toSelf sock (Event.partnerJoined p.id p.language p.name))
        else [])
      ++ [Emit.toRoomAll roomId (Event.roomUpdate
            (mapSet room.users sock
              { id := sock, name := userName, language := userLang,
                joinedAt := now, socketId := sock }).length
            (mapVals (mapSet room.users sock
              { id := sock, name := userName, language := userLang,
                joinedAt := now, socketId := sock })))] := he
  rcases List.mem_cons.mp he' with hh | hh
  · rw [hh]
    simp [Emit.payload, Event.isJoinErrorEv]
  · rcases List.mem_append.mp hh with hh2 | hh2
    · by_cases hc : 1 < (mapSet room.users sock
          { id := sock, name := userName, language := userLang,
            joinedAt := now, socketId := sock }).length
      · rw [if_pos hc] at hh2
        rcases List.mem_cons.mp hh2 with hh3 | hh3
        · rw [hh3]
          simp [Emit.payload, Event.isJoinErrorEv]
        · rcases List.mem_map.mp hh3 with ⟨q, _, hq⟩
          rw [← hq]
          simp [Emit.payload, Event.isJoinErrorEv]
      · rw [if_neg hc] at hh2
        simp at hh2
    · have : e = Emit.toRoomAll roomId (Event.roomUpdate
          (mapSet room.users sock
            { id := sock, name := userName, language := userLang,
              joinedAt := now, socketId := sock }).length
          (mapVals (mapSet room.users sock
            { id := sock, name := userName, language := userLang,
              joinedAt := now, socketId := sock }))) := by
        simpa using hh2
      rw [this]
      simp [Emit.payload, Event.isJoinErrorEv]

/-- C6 counterexample: `handleVoiceRoomJoin` (server.js) has no AlreadyMember
check.  The sole member "P" of room "R" (stored language "en") re-joins "R"
with language "es": no `join-error` is emitted — the join succeeds and the
stored language is overwritten to "es". -/
theorem join_already_member_counterexample :
    ((handleVoiceRoomJoin stP "P" "R" "es" "Alice" 1).2).filter
        (fun e => e.payload.isJoinErrorEv) = []
    ∧ mapGet ((handleVoiceRoomJoin stP "P" "R" "es" "Alice" 1).1).rooms "R"
        = some { id := "R", host := some "P",
                 users := [("P", { id := "P", name := "Alice",
                                   language := "es", joinedAt := 1,
                                   socketId := "P" })],
                 videoSession := none, createdAt := 0, maxUsers := 2,
                 type := "voice" } :=
  ⟨by decide, by decide⟩

/-- C6 amended: in the part_001 `join-room` handler the checks are ordered
RoomNotFound, then RoomFull, then AlreadyMember: a repeat join by the current
member of an existing, non-full room fails with "Already in this room" and
leaves all state (membership, stored language, stored name) unchanged, while
a member of a full room receives the RoomFull error instead.  The server.js
`handleVoiceRoomJoin` performs no AlreadyMember check: a sole member's
re-join emits no `join-error` and overwrites the stored name and language. -/
theorem joinV1_already_member
    (st : ServerState) (sock roomId userLang userName : String) (now : Nat)
    (room : Room)
    (hroom : mapGet st.rooms roomId = some room)
    (hmem : mapGet st.socketToRoom sock = some roomId)
    (hmax : room.maxUsers = 2) :
    (room.users.length < 2 →
      joinRoomV1 st sock roomId userLang userName now =
        (st, [Emit.toSelf sock (Event.joinError "Already in this room")]))
    ∧ (2 ≤ room.users.length →
      joinRoomV1 st sock roomId userLang userName now =
        (st, [Emit.toSelf sock (Event.joinError "Room is full (max 2 users)")]))
    ∧ (room.users.length < 2 →
      ∃ r', mapGet ((handleVoiceRoomJoin st sock roomId
            userLang userName now).1).rooms roomId = some r'
        ∧ mapGet r'.users sock = some { id := sock, name := userName,
                                        language := userLang, joinedAt := now,
                                        socketId := sock }
        ∧ ((handleVoiceRoomJoin st sock roomId userLang userName now).2).filter
            (fun e => e.payload.isJoinErrorEv) = []) := by
  refine ⟨?_, ?_, ?_⟩
  · intro hlt
    simp only [joinRoomV1, hroom, hmem, hmax]
    rw [if_neg (by omega)]
    simp
  · intro hfull
    simp only [joinRoomV1, hroom, hmax]
    rw [if_pos hfull]
  · intro hlt
    have hred : handleVoiceRoomJoin st sock roomId userLang userName now =
        joinSuccess st room sock roomId userLang userName now := by
      simp only [handleVoiceRoomJoin, hroom, hmax]
      rw [if_neg (by omega)]
    refine ⟨{ room with
        users := mapSet room.users sock
          { id := sock, name := userName, language := userLang,
            joinedAt := now, socketId := sock },
        host := if (mapSet room.users sock
            { id := sock, name := userName, language := userLang,
              joinedAt := now, socketId := sock }).length == 1
          then some sock else room.host }, ?_, ?_, ?_⟩
    · rw [hred]
      exact mapGet_mapSet_self _ _ _
    · exact mapGet_mapSet_self _ _ _
    · rw [hred]
      exact joinSuccess_no_error st room sock roomId userLang userName now

/-- Witness for the amended C6: the sole member "P" of room "R" re-joining
via the part_001 handler is rejected with "Already in this room". -/
theorem joinV1_already_member_witness :
    joinRoomV1 stP "P" "R" "es" "Alice" 1 =
      (stP, [Emit.toSelf "P" (Event.joinError "Already in this room")]) :=
  (joinV1_already_member stP "P" "R" "es" "Alice" 1 roomP rfl rfl rfl).1
    (by decide)

end BabelWeb
